import Mathlib

/-!
Verification of the PLAN habit-tracker core (`src/app.go`) against its
natural-language specification.

Embedding conventions:
* Calendar dates are ISO `YYYY-MM-DD` strings in the source.  For valid dates,
  lexicographic string order coincides with numeric order of the key
  `y * 10000 + m * 100 + d`, so a date is embedded as that numeric key
  (a `Nat`), and a structured `CalDate` with Gregorian day-stepping is used
  where the source walks the calendar via `AddDate`.
* Go maps are embedded as association lists with unique keys; map access with
  a missing key yields the zero value, mirrored by `DayTasks.get`.
* `float64` percentage arithmetic is embedded over `ℚ` (the computations are
  sums, divisions and comparisons of exact day percentages).
* Each mutating operation takes the simulated outcome of `saveDataLocked`
  (`saveErr : Option String`, `none` = success) and reports whether it invoked
  the save and which error value it returns to its caller.
-/

namespace Plan

/-- A task template (src/app.go lines 17-24).  `type` is the raw string field
("binary", "count", or possibly empty in legacy data). -/
structure TaskTemplate where
  id : String
  name : String
  type : String
  order : Int
  createdAt : Nat
  deletedAt : Option Nat
  deriving DecidableEq, Repr

/-- A day record: task id → recorded integer value (src/app.go line 37). -/
abbrev DayTasks := List (String × Int)

/-- Association-list lookup, embedding Go map indexing with an `ok` flag. -/
def findVal {κ α : Type} [DecidableEq κ] : List (κ × α) → κ → Option α
  | [], _ => none
  | p :: rest, k => if p.1 = k then some p.2 else findVal rest k

/-- Go map access without the `ok` flag: a missing key yields the zero value. -/
def DayTasks.get (rec : DayTasks) (id : String) : Int :=
  match findVal rec id with
  | some v => v
  | none => 0

/-- The root persisted document (src/app.go lines 27-32). -/
structure PlannerData where
  templates : List TaskTemplate
  days : List (Nat × DayTasks)
  exportPath : String
  exportHistory : List (Nat × Nat)
  deriving DecidableEq, Repr

/-- The type normalisation `GetTasksForDate` applies before returning a
template (src/app.go lines 351-353). -/
def normType (t : TaskTemplate) : TaskTemplate :=
  if t.type = "" then { t with type := "binary" } else t

/-- The validity test of src/app.go lines 354-357 (and 594-595): created on or
before the date, and not deleted on or before it. -/
def validOn (t : TaskTemplate) (date : Nat) : Bool :=
  decide (t.createdAt ≤ date) &&
    (match t.deletedAt with
     | none => true
     | some da => decide (date < da))

/-- Comparison used by the `sort.Slice` calls: ascending template order. -/
def byOrder (a b : TaskTemplate) : Prop := a.order ≤ b.order

instance : DecidableRel byOrder := fun a b => inferInstanceAs (Decidable (a.order ≤ b.order))

instance : IsTotal TaskTemplate byOrder := ⟨fun a b => le_total a.order b.order⟩

instance : IsTrans TaskTemplate byOrder := ⟨fun _ _ _ h1 h2 => le_trans h1 h2⟩

/-- src/app.go `GetTasksForDate` (lines 345-368): templates valid on the date,
with the empty type defaulted to "binary", sorted ascending by `order`
(`sort.Slice` embedded as insertion sort; the spec claims only sortedness). -/
def GetTasksForDate (data : PlannerData) (date : Nat) : List TaskTemplate :=
  ((data.templates.map normType).filter (fun t => validOn t date)).insertionSort byOrder

/-- src/app.go `getTasksForDateLocked` (lines 591-601): the report-side filter,
with no type normalisation and no sorting. -/
def getTasksForDateLocked (templates : List TaskTemplate) (date : Nat) : List TaskTemplate :=
  templates.filter (fun t => validOn t date)

/-- src/app.go `LoadDay` (lines 477-490): the stored record or an empty map. -/
def LoadDay (data : PlannerData) (date : Nat) : DayTasks :=
  match findVal data.days date with
  | some rec => rec
  | none => []

/-- Result of a mutating operation: the new in-memory document, whether the
operation invoked `saveDataLocked`, and the error value it returns. -/
structure MutResult where
  state : PlannerData
  saved : Bool
  err : Option String
  deriving DecidableEq, Repr

/-- Replace the first template whose id matches, if any (the Go loops over
`a.data.Templates` that return on the first `t.ID == id` hit). -/
def updateFirst (ts : List TaskTemplate) (id : String) (f : TaskTemplate → TaskTemplate) :
    Option (List TaskTemplate) :=
  match ts with
  | [] => none
  | t :: rest =>
    if t.id = id then some (f t :: rest)
    else (updateFirst rest id f).map (t :: ·)

/-- Association-list update with overwrite, embedding Go map assignment. -/
def setAssoc {α : Type} : List (Nat × α) → Nat → α → List (Nat × α)
  | [], k, v => [(k, v)]
  | p :: rest, k, v => if p.1 = k then (k, v) :: rest else p :: setAssoc rest k v

/-- src/app.go `AddTask` (lines 371-402).  The fresh uuid is passed in as
`newId` and today's date as `today`.  Line 399 discards the result of
`saveDataLocked()` and line 401 returns a nil error unconditionally, which is
why the returned `err` ignores `saveErr`. -/
def AddTask (data : PlannerData) (name taskType : String) (newId : String)
    (today : Nat) (saveErr : Option String) : TaskTemplate × MutResult :=
  let ty0 := if taskType = "" then "binary" else taskType
  let ty := if ty0 ≠ "binary" ∧ ty0 ≠ "count" then "binary" else ty0
  let maxOrder : Int := data.templates.foldl (fun m t => if t.order > m then t.order else m) (-1)
  let task : TaskTemplate := ⟨newId, name, ty, maxOrder + 1, today, none⟩
  (task, ⟨{ data with templates := data.templates ++ [task] }, true, none⟩)

/-- The kind coercion at the head of `SetTaskType` (src/app.go 409-411):
an empty kind becomes "binary". -/
def coerceKind (s : String) : String := if s = "" then "binary" else s

/-- src/app.go `SetTaskType` (lines 405-424): empty type is first coerced to
"binary"; any other non-"binary"/"count" value returns nil without saving;
otherwise the first matching template's type is set and the save result is
returned; an unknown id returns nil without saving. -/
def SetTaskType (data : PlannerData) (id taskType : String) (saveErr : Option String) :
    MutResult :=
  if coerceKind taskType ≠ "binary" ∧ coerceKind taskType ≠ "count" then ⟨data, false, none⟩
  else
    match updateFirst data.templates id (fun t => { t with type := coerceKind taskType }) with
    | some ts => ⟨{ data with templates := ts }, true, saveErr⟩
    | none => ⟨data, false, none⟩

/-- src/app.go `UpdateTask` (lines 427-439). -/
def UpdateTask (data : PlannerData) (id name : String) (saveErr : Option String) : MutResult :=
  match updateFirst data.templates id (fun t => { t with name := name }) with
  | some ts => ⟨{ data with templates := ts }, true, saveErr⟩
  | none => ⟨data, false, none⟩

/-- src/app.go `DeleteTask` (lines 442-455): sets `DeletedAt = &today` on the
first matching template (unconditionally, even when already set) and returns
the save result; an unknown id returns nil without saving. -/
def DeleteTask (data : PlannerData) (id : String) (today : Nat) (saveErr : Option String) :
    MutResult :=
  match updateFirst data.templates id (fun t => { t with deletedAt := some today }) with
  | some ts => ⟨{ data with templates := ts }, true, saveErr⟩
  | none => ⟨data, false, none⟩

/-- The order map of src/app.go lines 462-465: id → positional index, a later
occurrence of a duplicate id overwriting an earlier one (hence the reversed
lookup). -/
def orderLookup (ids : List String) (id : String) : Option Int :=
  findVal ((ids.enum.map (fun p => (p.2, (p.1 : Int)))).reverse) id

/-- src/app.go `ReorderTasks` (lines 458-474): every template whose id occurs
in the input list gets its positional index as order; others are unchanged;
always saves. -/
def ReorderTasks (data : PlannerData) (ids : List String) (saveErr : Option String) :
    MutResult :=
  let newTs := data.templates.map (fun t =>
    match orderLookup ids t.id with
    | some o => { t with order := o }
    | none => t)
  ⟨{ data with templates := newTs }, true, saveErr⟩

/-- src/app.go `SaveDay` (lines 493-503): replaces the whole record for the
date and saves. -/
def SaveDay (data : PlannerData) (date : Nat) (tasks : DayTasks) (saveErr : Option String) :
    MutResult :=
  ⟨{ data with days := setAssoc data.days date tasks }, true, saveErr⟩

/-- src/app.go `SetExportPath` (lines 785-791). -/
def SetExportPath (data : PlannerData) (path : String) (saveErr : Option String) : MutResult :=
  ⟨{ data with exportPath := path }, true, saveErr⟩

/-- src/app.go `MarkWeekExported` (lines 801-811). -/
def MarkWeekExported (data : PlannerData) (weekStart today : Nat) (saveErr : Option String) :
    MutResult :=
  ⟨{ data with exportHistory := setAssoc data.exportHistory weekStart today }, true, saveErr⟩

/-- The four templates synthesized by `migrateOldData` (src/app.go 209-214). -/
def defaultMigrationTasks (today : Nat) : List TaskTemplate :=
  [⟨"task-1", "Task 1", "binary", 0, today, none⟩,
   ⟨"task-2", "Task 2", "binary", 1, today, none⟩,
   ⟨"task-3", "Task 3", "binary", 2, today, none⟩,
   ⟨"task-4", "Task 4", "binary", 3, today, none⟩]

/-- Positional conversion of one legacy day (src/app.go 219-228): index `i`
maps to the `i`-th synthesized template's id for `i < 4`, `true` → 1,
`false` → 0; later indices are dropped. -/
def convertLegacyDay (today : Nat) : Nat → List Bool → DayTasks
  | _, [] => []
  | i, b :: rest =>
    if h : i < (defaultMigrationTasks today).length then
      (((defaultMigrationTasks today).get ⟨i, h⟩).id, if b then (1 : Int) else 0) ::
        convertLegacyDay today (i + 1) rest
    else convertLegacyDay today (i + 1) rest

/-- src/app.go `migrateOldData` (lines 174-238), modelled on the already-parsed
legacy mapping date → boolean list; `none` means migration does not run (empty
mapping, or no date with a non-empty list).  When it runs, the document is
replaced wholesale: the four synthesized templates, the converted days, and
zero values for the remaining fields (line 232-235). -/
def migrateOldData (old : List (Nat × List Bool)) (today : Nat) : Option PlannerData :=
  if old.isEmpty then none
  else if old.all (fun p => p.2.isEmpty) then none
  else some ⟨defaultMigrationTasks today,
             old.map (fun p => (p.1, convertLegacyDay today 0 p.2)), "", []⟩

/-! ### Calendar arithmetic

The reports walk dates with `time.Time.AddDate`; the Gregorian rules are
embedded directly. -/

/-- A structured calendar date. -/
structure CalDate where
  y : Nat
  m : Nat
  d : Nat
  deriving DecidableEq, Repr

/-- Gregorian leap-year rule. -/
def isLeapYear (y : Nat) : Bool :=
  (y % 4 == 0 && y % 100 != 0) || y % 400 == 0

/-- Length of a calendar month. -/
def daysInMonth (y m : Nat) : Nat :=
  if m = 2 then (if isLeapYear y then 29 else 28)
  else if m = 4 ∨ m = 6 ∨ m = 9 ∨ m = 11 then 30
  else 31

/-- The numeric key of a date; for valid dates its order coincides with
lexicographic order of the ISO `YYYY-MM-DD` string the source compares. -/
def CalDate.key (dt : CalDate) : Nat := dt.y * 10000 + dt.m * 100 + dt.d

/-- The following calendar day (`AddDate(0, 0, 1)`). -/
def CalDate.next (dt : CalDate) : CalDate :=
  if dt.d < daysInMonth dt.y dt.m then ⟨dt.y, dt.m, dt.d + 1⟩
  else if dt.m < 12 then ⟨dt.y, dt.m + 1, 1⟩
  else ⟨dt.y + 1, 1, 1⟩

/-- `AddDate(0, 0, n)` as `n` single-day steps. -/
def CalDate.addDays (dt : CalDate) : Nat → CalDate
  | 0 => dt
  | n + 1 => CalDate.addDays dt.next n

/-- The days of one calendar month in order.  The monthly and yearly report
loops walk from `time.Date(year, month, 1, ...)` through
`firstDay.AddDate(0, 1, -1)` one day at a time, which for a month in `1..12`
visits exactly days `1 .. daysInMonth`. -/
def monthDates (y m : Nat) : List CalDate :=
  (List.range (daysInMonth y m)).map (fun j => ⟨y, m, j + 1⟩)

/-! ### Report aggregation -/

/-- The per-day completion count shared by the three report loops
(src/app.go 566-577, 631-642, 700-711): valid tasks whose (binary-defaulted)
type is "binary" or "count" and whose recorded value is positive. -/
def completedCount (tasks : List TaskTemplate) (rec : DayTasks) : Nat :=
  (tasks.filter (fun t =>
    (let ty := if t.type = "" then "binary" else t.type
     ty == "binary" || ty == "count") && decide (0 < DayTasks.get rec t.id))).length

/-- The percentage a report loop computes for one day: `none` when the day has
no valid tasks or no stored record (the loops then skip the day), otherwise
`completed / taskCount * 100` (src/app.go 558-580 and the two analogous
blocks). -/
def dayPercent (tmpls : List TaskTemplate) (days : List (Nat × DayTasks)) (dk : Nat) :
    Option ℚ :=
  let tasks := getTasksForDateLocked tmpls dk
  if tasks.length = 0 then none
  else
    match findVal days dk with
    | none => none
    | some rec => some ((completedCount tasks rec : ℚ) / (tasks.length : ℚ) * 100)

/-- src/app.go `GetWeeklyReport` (lines 536-588): the seven daily percentages
(days skipped by the loop keep their zero slot) and their sum divided by 7. -/
def GetWeeklyReport (data : PlannerData) (start : CalDate) : List ℚ × ℚ :=
  let dailies := (List.range 7).map (fun i =>
    (dayPercent data.templates data.days ((start.addDays i).key)).getD 0)
  (dailies, dailies.sum / 7)

/-- Consecutive blocks of (at most) 7, mirroring the chunked walk of the
monthly report loop (src/app.go 620-653). -/
def chunk7 {α : Type} (l : List α) : List (List α) :=
  if l.isEmpty then [] else l.take 7 :: chunk7 (l.drop 7)
termination_by l.length
decreasing_by
  simp_all [List.isEmpty_iff, List.length_pos]

/-- One monthly block's value: the sum of the block's (zero-defaulted) day
percentages divided by the number of days processed in the block
(src/app.go 650-652). -/
def blockValues (data : PlannerData) (dates : List CalDate) : List ℚ :=
  (chunk7 dates).map (fun blk =>
    (blk.map (fun dt => (dayPercent data.templates data.days dt.key).getD 0)).sum /
      (blk.length : ℚ))

/-- The trend comparison of src/app.go 657-665: only applied with at least two
blocks, comparing the first and last block values with a 10-point threshold. -/
def trendOf (ws : List ℚ) : String :=
  if 2 ≤ ws.length then
    if ws.getLastD 0 > ws.headD 0 + 10 then "up"
    else if ws.getLastD 0 < ws.headD 0 - 10 then "down"
    else "stable"
  else "stable"

/-- src/app.go `GetMonthlyReport` (lines 604-668): block values and trend. -/
def GetMonthlyReport (data : PlannerData) (year month : Nat) : List ℚ × String :=
  let ws := blockValues data (monthDates year month)
  (ws, trendOf ws)

/-- One month's filtered day-percentage list in the yearly report: only days
with at least one valid task and a stored record contribute
(src/app.go 693-716). -/
def monthFilteredPercents (data : PlannerData) (year month : Nat) : List ℚ :=
  (monthDates year month).filterMap (fun dt => dayPercent data.templates data.days dt.key)

/-- Mean of a day-percentage list; 0 for the empty list (the untouched slot of
`monthlyAverages`, src/app.go 681 and 718-724). -/
def listAvg (l : List ℚ) : ℚ := if l.length = 0 then 0 else l.sum / (l.length : ℚ)

/-- Population variance of a day-percentage list; 0 for the empty list (the
untouched slot of `monthlyVariances`, src/app.go 682 and 728-733). -/
def popVariance (l : List ℚ) : ℚ :=
  if l.length = 0 then 0
  else ((l.map (fun p => (p - listAvg l) * (p - listAvg l))).sum) / (l.length : ℚ)

/-- The most-consistent-month scan of src/app.go 737-744: walk the 12 variance
slots in order, tracking `(mostConsistent, lowestVariance)` with sentinel
`lowestVariance = -1`, updating when the month's average is positive and its
variance is strictly below the tracked one (or nothing is tracked yet). -/
def consistentStep (avgs vars : List ℚ) (acc : Nat × ℚ) (i : Nat) : Nat × ℚ :=
  if 0 < avgs.getD i 0 ∧ (acc.2 < 0 ∨ vars.getD i 0 < acc.2) then (i, vars.getD i 0) else acc

/-- The aggregation src/app.go 718-750 performs over the twelve filtered
day-percentage lists: monthly averages (0 for an empty list), the
most-consistent scan, and the year total (sum of the averages of months with
a non-empty list divided by the number of such months; 0 when there is
none). -/
def yearlyFromLists (lists : List (List ℚ)) : List ℚ × Nat × ℚ :=
  let avgs := lists.map listAvg
  let vars := lists.map popVariance
  let nonEmpty := lists.filter (fun l => !l.isEmpty)
  let yearTotal :=
    if nonEmpty.length = 0 then 0
    else (nonEmpty.map listAvg).sum / (nonEmpty.length : ℚ)
  let mc := ((List.range 12).foldl (consistentStep avgs vars) ((0, -1) : Nat × ℚ)).1
  (avgs, mc, yearTotal)

/-- src/app.go `GetYearlyReport` (lines 671-753): the twelve monthly averages,
the most consistent month index, and the year total. -/
def GetYearlyReport (data : PlannerData) (year : Nat) : List ℚ × Nat × ℚ :=
  yearlyFromLists ((List.range 12).map (fun i => monthFilteredPercents data year (i + 1)))

/-! ### Integer-level day summaries

`float64` percentages enter each report as `completed / taskCount * 100`; the
summaries below record the integer pair `(completed, taskCount)` a processed
day produces, so concrete report values can be computed by kernel reduction
and lifted to `ℚ` by the bridge lemmas proved later. -/

/-- The `(completed, taskCount)` pair of one processed day; `none` when the
report loops skip the day (no valid tasks, or no stored record). -/
def daySummary (tmpls : List TaskTemplate) (days : List (Nat × DayTasks)) (dk : Nat) :
    Option (Nat × Nat) :=
  let tasks := getTasksForDateLocked tmpls dk
  if tasks.length = 0 then none
  else
    match findVal days dk with
    | none => none
    | some rec => some (completedCount tasks rec, tasks.length)

/-- The percentage of a day summary. -/
def pctOf (p : Nat × Nat) : ℚ := (p.1 : ℚ) / (p.2 : ℚ) * 100

/-- The summaries of the days a month contributes to the yearly report. -/
def monthSummaries (data : PlannerData) (y m : Nat) : List (Nat × Nat) :=
  (monthDates y m).filterMap (fun dt => daySummary data.templates data.days dt.key)

/-- The twelve per-month summary lists of a year. -/
def yearSummaries (data : PlannerData) (year : Nat) : List (List (Nat × Nat)) :=
  (List.range 12).map (fun i => monthSummaries data year (i + 1))

/-- The per-day summaries of a month, unfiltered (for the monthly report). -/
def monthDaySummaries (data : PlannerData) (y m : Nat) : List (Option (Nat × Nat)) :=
  (monthDates y m).map (fun dt => daySummary data.templates data.days dt.key)

/-- The per-day summaries of a 7-day week window. -/
def weekSummaries (data : PlannerData) (start : CalDate) : List (Option (Nat × Nat)) :=
  (List.range 7).map (fun i => daySummary data.templates data.days ((start.addDays i).key))

/-! ### Spec-side definitions

These follow the specification's words, independently of the code-side
translations above, and are compared with them in the claim theorems. -/

/-- Spec-side day completion percentage with the weekly/monthly zero default:
0 when the day has no stored record or no valid tasks, otherwise
`100 * done / taskCount`. -/
def dayPercentZeroSpec (data : PlannerData) (dk : Nat) : ℚ :=
  match findVal data.days dk with
  | none => 0
  | some rec =>
    let tasks := getTasksForDateLocked data.templates dk
    if tasks.length = 0 then 0
    else 100 * ((completedCount tasks rec : ℚ) / (tasks.length : ℚ))

/-- The claimed `yearTotal` formula (claim C1): mean of the monthly averages
taken only over months whose average is strictly positive, 0 when there is no
such month. -/
def yearTotalClaim (data : PlannerData) (year : Nat) : ℚ :=
  let avgs := (List.range 12).map (fun i => listAvg (monthFilteredPercents data year (i + 1)))
  let pos := avgs.filter (fun a => decide (0 < a))
  if pos.length = 0 then 0 else pos.sum / (pos.length : ℚ)

/-- The amended `yearTotal` formula: mean of the monthly averages taken over
the months whose filtered day-percentage list is non-empty (months with data
averaging exactly 0 included), 0 when no month has data. -/
def yearTotalAmendedClaim (data : PlannerData) (year : Nat) : ℚ :=
  let entries := (List.range 12).filterMap (fun i =>
    let l := monthFilteredPercents data year (i + 1)
    if l.length = 0 then none else some (l.sum / (l.length : ℚ)))
  if entries.length = 0 then 0 else entries.sum / (entries.length : ℚ)

/-- The ids of the four synthesized migration templates, in positional
order. -/
def legacyIds : List String := ["task-1", "task-2", "task-3", "task-4"]

/-- Spec-side legacy day conversion (claim C9): the boolean at position `i`
maps to the `i`-th synthesized template's id with value 1 for `true` and 0 for
`false`; positions beyond the four synthesized templates are discarded. -/
def legacyDaySpec (bs : List Bool) : DayTasks :=
  (bs.take 4).enum.map (fun p => (legacyIds.getD p.1 "", if p.2 then (1 : Int) else 0))

/-! ### Atomic-write model (claim C10)

`atomicWriteFile` (src/app.go 274-320) is embedded as a sequence of abstract
file-system steps; an interruption is the execution of a prefix of that
sequence. -/

/-- Visible contents of the two paths `atomicWriteFile` touches on its happy
path: the target file and the temporary file. -/
structure FsState where
  target : Option (List Nat)
  temp : Option (List Nat)
  deriving DecidableEq, Repr

/-- The steps of `atomicWriteFile` in source order: create the temp file in
the target's directory (line 276), write the document (283), sync (290),
close (296), rename onto the target (302). -/
inductive WriteStep where
  | createTemp : WriteStep
  | writeTemp : List Nat → WriteStep
  | syncTemp : WriteStep
  | closeTemp : WriteStep
  | renameTempToTarget : WriteStep
  deriving DecidableEq, Repr

/-- Effect of one step on the visible file-system state; sync and close do not
change visible contents. -/
def applyStep (fs : FsState) : WriteStep → FsState
  | .createTemp => { fs with temp := some [] }
  | .writeTemp d => { fs with temp := some d }
  | .syncTemp => fs
  | .closeTemp => fs
  | .renameTempToTarget => ⟨fs.temp, none⟩

/-- Run a sequence of steps. -/
def runSteps (fs : FsState) (steps : List WriteStep) : FsState :=
  steps.foldl applyStep fs

/-- The happy-path step sequence of `atomicWriteFile data`. -/
def atomicWriteSteps (data : List Nat) : List WriteStep :=
  [.createTemp, .writeTemp data, .syncTemp, .closeTemp, .renameTempToTarget]

/-! ### Concrete instances for counterexamples and witnesses -/

/-- A single binary task created 2024-01-01. -/
def tmplY : TaskTemplate := ⟨"a", "A", "binary", 0, 20240101, none⟩

/-- C1 counterexample data: January has one recorded day at 0%, February one
at 100%, no other records. -/
def dataC1 : PlannerData :=
  ⟨[tmplY], [(20240115, [("a", 0)]), (20240215, [("a", 1)])], "", []⟩

/-- Four binary tasks created 2024-01-01. -/
def tmplsC4 : List TaskTemplate :=
  [⟨"a", "A", "binary", 0, 20240101, none⟩, ⟨"b", "B", "binary", 1, 20240101, none⟩,
   ⟨"c", "C", "binary", 2, 20240101, none⟩, ⟨"d", "D", "binary", 3, 20240101, none⟩]

/-- C4 witness data: January has two recorded days at 75% (average 75,
variance 0); February has days at 50% and 100% (average 75, positive
variance). -/
def dataC4 : PlannerData :=
  ⟨tmplsC4,
   [(20240110, [("a", 1), ("b", 1), ("c", 1), ("d", 0)]),
    (20240111, [("a", 1), ("b", 1), ("c", 1), ("d", 0)]),
    (20240210, [("a", 1), ("b", 1), ("c", 0), ("d", 0)]),
    (20240211, [("a", 1), ("b", 1), ("c", 1), ("d", 1)])],
   "", []⟩

/-- C6 counterexample data: a task already soft-deleted on 2024-04-01. -/
def tmplC6 : TaskTemplate := ⟨"a", "A", "binary", 0, 20240101, some 20240401⟩

/-- Registry holding only the already-deleted task. -/
def dataC6 : PlannerData := ⟨[tmplC6], [], "", []⟩

/-- C7 counterexample data: a task of kind "count". -/
def tmplC7 : TaskTemplate := ⟨"a", "A", "count", 0, 20240101, none⟩

/-- Registry holding only the count task. -/
def dataC7 : PlannerData := ⟨[tmplC7], [], "", []⟩

/-- C5 witness data: one deleted and one not-yet-created template around a
valid one. -/
def tmplsC5 : List TaskTemplate :=
  [⟨"b", "B", "", 1, 20240101, some 20240301⟩,
   ⟨"a", "A", "binary", 0, 20240101, none⟩,
   ⟨"c", "C", "count", 2, 20240801, none⟩]

/-- Registry for the C5 witness. -/
def dataC5 : PlannerData := ⟨tmplsC5, [], "", []⟩

/-- The migrated document of the C9 scenario input
`\x7b"2024-01-01": [true, false, true]\x7d` with migration day 2025-01-01. -/
def dataC9 : PlannerData :=
  ⟨defaultMigrationTasks 20250101,
   [(20240101, [("task-1", 1), ("task-2", 0), ("task-3", 1)])], "", []⟩

/-- An empty document: no templates, no records. -/
def dataEmpty : PlannerData := ⟨[], [], "", []⟩

/-- Invariant of the most-consistent-month scan after the indices below `i`
have been processed: either nothing qualified yet and the accumulator still
holds the sentinel, or the accumulator holds a processed qualifying index of
minimal variance, earliest among processed qualifying indices attaining it. -/
def ScanInv (avgs vars : List ℚ) (i : Nat) (acc : Nat × ℚ) : Prop :=
  (acc = (0, -1) ∧ ∀ j, j < i → ¬(0 < avgs.getD j 0)) ∨
    (0 ≤ acc.2 ∧ acc.1 < i ∧ 0 < avgs.getD acc.1 0 ∧ acc.2 = vars.getD acc.1 0 ∧
      (∀ j, j < i → 0 < avgs.getD j 0 → vars.getD acc.1 0 ≤ vars.getD j 0) ∧
      (∀ j, j < i → 0 < avgs.getD j 0 → vars.getD j 0 = vars.getD acc.1 0 → acc.1 ≤ j))

/-! ## Bridge lemmas between the reports and the integer-level summaries -/

theorem dayPercent_eq_summary (tmpls : List TaskTemplate) (days : List (Nat × DayTasks))
    (dk : Nat) :
    dayPercent tmpls days dk = (daySummary tmpls days dk).map pctOf := by
  unfold dayPercent daySummary
  by_cases h : (getTasksForDateLocked tmpls dk).length = 0
  · simp [h]
  · simp only [h, if_false]
    cases findVal days dk <;> simp [pctOf]

theorem monthFilteredPercents_eq_summaries (data : PlannerData) (y m : Nat) :
    monthFilteredPercents data y m = (monthSummaries data y m).map pctOf := by
  unfold monthFilteredPercents monthSummaries
  rw [List.map_filterMap]
  have h : (fun dt : CalDate => dayPercent data.templates data.days dt.key) =
      fun dt : CalDate => (daySummary data.templates data.days dt.key).map pctOf :=
    funext fun dt => dayPercent_eq_summary data.templates data.days dt.key
  rw [h]

theorem getYearlyReport_eq_summaries (data : PlannerData) (year : Nat) :
    GetYearlyReport data year =
      yearlyFromLists ((yearSummaries data year).map (fun s => s.map pctOf)) := by
  unfold GetYearlyReport yearSummaries
  rw [List.map_map]
  have h : (fun i => monthFilteredPercents data year (i + 1)) =
      ((fun s : List (Nat × Nat) => s.map pctOf) ∘ fun i => monthSummaries data year (i + 1)) :=
    funext fun i => monthFilteredPercents_eq_summaries data year (i + 1)
  rw [h]

theorem getWeeklyReport_eq_summaries (data : PlannerData) (start : CalDate) :
    GetWeeklyReport data start =
      (let ds := (weekSummaries data start).map (fun o => (o.map pctOf).getD 0)
       (ds, ds.sum / 7)) := by
  unfold GetWeeklyReport weekSummaries
  rw [List.map_map]
  have h : (fun i => (dayPercent data.templates data.days ((start.addDays i).key)).getD 0) =
      ((fun o : Option (Nat × Nat) => (o.map pctOf).getD 0) ∘
        fun i => daySummary data.templates data.days ((start.addDays i).key)) :=
    funext fun i => by
      simp only [Function.comp_apply, dayPercent_eq_summary]
  rw [h]

theorem chunk7_map {α β : Type} (f : α → β) (l : List α) :
    chunk7 (l.map f) = (chunk7 l).map (List.map f) := by
  by_cases h : l = []
  · subst h
    simp [chunk7]
  · have h1 : ¬((l.map f).isEmpty = true) := by simp [List.isEmpty_iff, h]
    have h2 : ¬(l.isEmpty = true) := by simp [List.isEmpty_iff, h]
    conv_rhs => rw [chunk7]
    rw [if_neg h2, chunk7, if_neg h1]
    rw [← List.map_take, ← List.map_drop, chunk7_map f (l.drop 7)]
    simp
termination_by l.length
decreasing_by
  simp only [List.length_drop]
  have hp : 0 < l.length := List.length_pos.mpr h
  omega

theorem getMonthlyReport_eq_summaries (data : PlannerData) (y m : Nat) :
    GetMonthlyReport data y m =
      (let ws := (chunk7 (monthDaySummaries data y m)).map
          (fun blk => (blk.map (fun o => (o.map pctOf).getD 0)).sum / (blk.length : ℚ))
       (ws, trendOf ws)) := by
  unfold GetMonthlyReport blockValues monthDaySummaries
  rw [chunk7_map]
  rw [List.map_map]
  have h : (fun blk : List CalDate =>
        (blk.map fun dt => (dayPercent data.templates data.days dt.key).getD 0).sum /
          (blk.length : ℚ)) =
      ((fun blk : List (Option (Nat × Nat)) =>
          (blk.map fun o => (o.map pctOf).getD 0).sum / (blk.length : ℚ)) ∘
        List.map fun dt : CalDate => daySummary data.templates data.days dt.key) := by
    funext blk
    simp only [Function.comp_apply, List.map_map, List.length_map]
    congr 1
    apply congrArg
    apply List.map_congr_left
    intro dt _
    simp [dayPercent_eq_summary]
  rw [h]

/-! ## Registry helper lemmas -/

theorem updateFirst_eq_none (ts : List TaskTemplate) (id : String)
    (f : TaskTemplate → TaskTemplate) (h : ∀ t ∈ ts, t.id ≠ id) :
    updateFirst ts id f = none := by
  induction ts with
  | nil => rfl
  | cons t rest ih =>
    rw [updateFirst, if_neg (h t (by simp)), ih (fun u hu => h u (by simp [hu]))]
    rfl

theorem updateFirst_found (pre : List TaskTemplate) (t : TaskTemplate)
    (post : List TaskTemplate) (id : String) (f : TaskTemplate → TaskTemplate)
    (hpre : ∀ u ∈ pre, u.id ≠ id) (ht : t.id = id) :
    updateFirst (pre ++ t :: post) id f = some (pre ++ f t :: post) := by
  induction pre with
  | nil => simp [updateFirst, ht]
  | cons u rest ih =>
    rw [List.cons_append, updateFirst, if_neg (hpre u (by simp)),
      ih (fun v hv => hpre v (by simp [hv]))]
    rfl

/-! ## Claim C10: atomic write never exposes a partial target -/

/-- C10: the atomic-write sequence writes and syncs the whole document to the
temporary file before the final rename (the rename is the last step and the
temp file already holds the full document after step 4), executing any prefix
of the sequence stopping before the rename leaves the target's contents
byte-for-byte unchanged, and the completed sequence installs the document as
the target. -/
theorem atomicWrite_crash_safe (fs : FsState) (data : List Nat) (k : Nat) (hk : k ≤ 4) :
    (runSteps fs ((atomicWriteSteps data).take k)).target = fs.target ∧
      (runSteps fs ((atomicWriteSteps data).take 4)).temp = some data ∧
      (atomicWriteSteps data).getLast? = some WriteStep.renameTempToTarget ∧
      runSteps fs (atomicWriteSteps data) = ⟨some data, none⟩ := by
  refine ⟨?_, ?_, rfl, ?_⟩
  · interval_cases k <;> simp [runSteps, atomicWriteSteps, applyStep]
  · simp [runSteps, atomicWriteSteps, applyStep]
  · simp [runSteps, atomicWriteSteps, applyStep]

/-- C10 witness: a target holding `[7]` is intact after running the first
three steps of an atomic write of `[9]`. -/
theorem atomicWrite_crash_safe_witness :
    (runSteps ⟨some [7], none⟩ ((atomicWriteSteps [9]).take 3)).target = some [7] := by
  simpa using (atomicWrite_crash_safe ⟨some [7], none⟩ [9] 3 (by norm_num)).1

/-! ## Claim C6: DeleteTask -/

/-- C6 counterexample: `DeleteTask` on a task already soft-deleted on
2024-04-01 overwrites its `deletedAt` with today's date, so an
already-deleted task's `deletedAt` is not left unchanged. -/
theorem deleteTask_overwrites_deletedAt :
    (DeleteTask dataC6 "a" 20240601 none).state.templates ≠ dataC6.templates ∧
      (DeleteTask dataC6 "a" 20240601 none).state.templates =
        [⟨"a", "A", "binary", 0, 20240101, some 20240601⟩] := by
  constructor
  · decide
  · decide

/-- C6 (amended): `DeleteTask(id)` sets the first matching template's
`deletedAt` to today unconditionally — overwriting any prior value — and
returns the save result; an unknown id is a no-op returning success without
saving; in every case the days mapping is unmodified. -/
theorem deleteTask_amended (data : PlannerData) (id : String) (today : Nat)
    (saveErr : Option String) :
    (DeleteTask data id today saveErr).state.days = data.days ∧
      ((∀ t ∈ data.templates, t.id ≠ id) →
        DeleteTask data id today saveErr = ⟨data, false, none⟩) ∧
      (∀ pre t post, data.templates = pre ++ t :: post → (∀ u ∈ pre, u.id ≠ id) →
        t.id = id →
        (DeleteTask data id today saveErr).state =
          { data with templates := pre ++ { t with deletedAt := some today } :: post } ∧
        (DeleteTask data id today saveErr).err = saveErr) := by
  refine ⟨?_, ?_, ?_⟩
  · unfold DeleteTask
    cases h : updateFirst data.templates id (fun t => { t with deletedAt := some today }) <;>
      simp [h]
  · intro h
    unfold DeleteTask
    rw [updateFirst_eq_none _ _ _ h]
  · intro pre t post hsplit hpre ht
    unfold DeleteTask
    rw [hsplit, updateFirst_found pre t post id _ hpre ht]
    exact ⟨rfl, rfl⟩

/-- C6 witness: deleting the only task rewrites its `deletedAt` to today. -/
theorem deleteTask_amended_witness :
    (DeleteTask dataC6 "a" 20240601 none).state =
      { dataC6 with templates := [{ tmplC6 with deletedAt := some 20240601 }] } := by
  exact ((deleteTask_amended dataC6 "a" 20240601 none).2.2 [] tmplC6 [] rfl
    (by simp) rfl).1

/-! ## Claim C7: SetTaskKind -/

/-- C7 counterexample: `SetTaskType` with the empty kind is not a no-op — it
coerces the empty kind to "binary" and rewrites a "count" task's kind. -/
theorem setTaskType_empty_changes :
    (SetTaskType dataC7 "a" "" none).state.templates ≠ dataC7.templates ∧
      (SetTaskType dataC7 "a" "" none).state.templates =
        [⟨"a", "A", "binary", 0, 20240101, none⟩] := by
  constructor
  · decide
  · decide

/-- C7 (amended): an empty kind is coerced to "binary" (so the call behaves
exactly like setting "binary"); any other kind that is neither "binary" nor
"count" is a no-op returning success without saving; a valid kind with an
unknown id is a no-op; a valid kind with an existing id updates exactly the
first matching template's kind field and returns the save result. -/
theorem setTaskType_amended (data : PlannerData) (id kind : String)
    (saveErr : Option String) :
    (kind ≠ "" → kind ≠ "binary" → kind ≠ "count" →
      SetTaskType data id kind saveErr = ⟨data, false, none⟩) ∧
      (SetTaskType data id "" saveErr = SetTaskType data id "binary" saveErr) ∧
      ((∀ t ∈ data.templates, t.id ≠ id) →
        SetTaskType data id kind saveErr = ⟨data, false, none⟩) ∧
      (∀ pre t post, data.templates = pre ++ t :: post → (∀ u ∈ pre, u.id ≠ id) →
        t.id = id → (kind = "binary" ∨ kind = "count") →
        (SetTaskType data id kind saveErr).state =
          { data with templates := pre ++ { t with type := kind } :: post } ∧
        (SetTaskType data id kind saveErr).err = saveErr) := by
  refine ⟨?_, ?_, ?_, ?_⟩
  · intro h1 h2 h3
    have hc : coerceKind kind = kind := by simp [coerceKind, h1]
    unfold SetTaskType
    rw [if_pos (by rw [hc]; exact ⟨h2, h3⟩)]
  · have hc : coerceKind "" = coerceKind "binary" := by simp [coerceKind]
    unfold SetTaskType
    rw [hc]
  · intro h
    unfold SetTaskType
    split
    · rfl
    · rw [updateFirst_eq_none _ _ _ h]
  · intro pre t post hsplit hpre ht hkind
    have hc : coerceKind kind = kind := by
      rcases hkind with h | h <;> subst h <;> simp [coerceKind]
    have hcond : ¬(coerceKind kind ≠ "binary" ∧ coerceKind kind ≠ "count") := by
      rw [hc]
      rcases hkind with h | h <;> subst h <;> simp
    unfold SetTaskType
    rw [if_neg hcond, hc, hsplit, updateFirst_found pre t post id _ hpre ht]
    exact ⟨rfl, rfl⟩

/-- C7 witness: setting kind "count" on an existing "binary"-typed... -/
theorem setTaskType_amended_witness :
    (SetTaskType dataC6 "a" "count" none).state =
      { dataC6 with templates := [{ tmplC6 with type := "count" }] } := by
  exact ((setTaskType_amended dataC6 "a" "count" none).2.2.2 [] tmplC6 [] rfl
    (by simp) rfl (Or.inr rfl)).1

/-! ## Claim C8: save errors surfaced to the caller -/

/-- C8 counterexample: `AddTask` performs the persistence write (line 399) but
returns a nil error unconditionally (line 401), silently discarding a failed
save. -/
theorem addTask_discards_save_error :
    ((AddTask dataC7 "X" "binary" "id-9" 20240601 (some "disk full")).2.saved = true) ∧
      ((AddTask dataC7 "X" "binary" "id-9" 20240601 (some "disk full")).2.err = none) := by
  exact ⟨rfl, rfl⟩

/-- C8 (amended): every mutating operation except `AddTask` returns the save
error to the caller whenever it performs the persistence write and the write
fails; `AddTask` performs the write but discards the error and reports
success. -/
theorem mutators_propagate_save_error (data : PlannerData) (e id nm ty p newId : String)
    (ids : List String) (dt td wk : Nat) (rec0 : DayTasks) :
    ((UpdateTask data id nm (some e)).saved = true →
      (UpdateTask data id nm (some e)).err = some e) ∧
      ((SetTaskType data id ty (some e)).saved = true →
        (SetTaskType data id ty (some e)).err = some e) ∧
      ((DeleteTask data id td (some e)).saved = true →
        (DeleteTask data id td (some e)).err = some e) ∧
      (ReorderTasks data ids (some e)).err = some e ∧
      (SaveDay data dt rec0 (some e)).err = some e ∧
      (SetExportPath data p (some e)).err = some e ∧
      (MarkWeekExported data wk td (some e)).err = some e ∧
      ((AddTask data nm ty newId td (some e)).2.saved = true ∧
        (AddTask data nm ty newId td (some e)).2.err = none) := by
  refine ⟨?_, ?_, ?_, rfl, rfl, rfl, rfl, rfl, rfl⟩
  · unfold UpdateTask
    cases h : updateFirst data.templates id (fun t => { t with name := nm }) <;> simp [h]
  · unfold SetTaskType
    split
    · simp
    · cases h : updateFirst data.templates id _ <;> simp [h]
  · unfold DeleteTask
    cases h : updateFirst data.templates id (fun t => { t with deletedAt := some td }) <;>
      simp [h]

/-- C8 witness: a failing save during a rename is reported by `UpdateTask`. -/
theorem mutators_propagate_save_error_witness :
    (UpdateTask dataC7 "a" "B" (some "boom")).err = some "boom" := by
  exact (mutators_propagate_save_error dataC7 "boom" "a" "B" "binary" "p" "n" [] 1 2 3 []).1
    (by decide)

/-! ## Claim C5: GetTasksForDate membership and order -/

theorem validOn_iff (t : TaskTemplate) (d : Nat) :
    validOn t d = true ↔
      (t.createdAt ≤ d ∧ (t.deletedAt = none ∨ ∃ da, t.deletedAt = some da ∧ d < da)) := by
  unfold validOn
  cases h : t.deletedAt <;> simp [h]

theorem validOn_normType (t : TaskTemplate) (d : Nat) :
    validOn (normType t) d = validOn t d := by
  unfold normType validOn
  split <;> rfl

/-- C5: a registry template (with the "binary" default filled into an empty
kind field, as the operation returns it) is in `GetTasksForDate(d)` iff its
`createdAt` is at most `d` and its `deletedAt` is absent or after `d`; every
returned template arises from a registry template valid on `d`; and the
result is sorted ascending by `order`. -/
theorem getTasksForDate_spec (data : PlannerData) (d : Nat) :
    (∀ t ∈ data.templates,
        (normType t ∈ GetTasksForDate data d ↔
          (t.createdAt ≤ d ∧ (t.deletedAt = none ∨ ∃ da, t.deletedAt = some da ∧ d < da)))) ∧
      (∀ u ∈ GetTasksForDate data d,
        ∃ t ∈ data.templates, u = normType t ∧ validOn t d = true) ∧
      (GetTasksForDate data d).Sorted byOrder := by
  refine ⟨?_, ?_, List.sorted_insertionSort byOrder _⟩
  · intro t ht
    rw [← validOn_iff]
    unfold GetTasksForDate
    rw [List.mem_insertionSort, List.mem_filter]
    constructor
    · rintro ⟨-, hv⟩
      rwa [validOn_normType] at hv
    · intro hv
      exact ⟨List.mem_map_of_mem normType ht, by rwa [validOn_normType]⟩
  · intro u hu
    unfold GetTasksForDate at hu
    rw [List.mem_insertionSort, List.mem_filter, List.mem_map] at hu
    obtain ⟨⟨t, ht, rfl⟩, hv⟩ := hu
    exact ⟨t, ht, rfl, by rwa [validOn_normType] at hv⟩

/-- C5 witness: on 2024-06-15 the never-deleted template created 2024-01-01 is
returned. -/
theorem getTasksForDate_spec_witness :
    normType ⟨"a", "A", "binary", 0, 20240101, none⟩ ∈ GetTasksForDate dataC5 20240615 := by
  exact ((getTasksForDate_spec dataC5 20240615).1 _ (by decide)).mpr
    ⟨by decide, Or.inl rfl⟩

/-! ## Claim C9: legacy migration -/

theorem findVal_map_of_mem {α β : Type} (g : Nat × α → β) :
    ∀ (l : List (Nat × α)) (k : Nat) (a : α),
      (k, a) ∈ l → (l.map Prod.fst).Nodup →
      findVal (l.map (fun p => (p.1, g p))) k = some (g (k, a)) := by
  intro l
  induction l with
  | nil => intro k a hmem _; simp at hmem
  | cons p rest ih =>
    intro k a hmem hnd
    rw [List.map_cons, findVal]
    by_cases hk : p.1 = k
    · rw [if_pos hk]
      rcases List.mem_cons.mp hmem with heq | htail
      · rw [heq]
      · exfalso
        have hkmem : k ∈ rest.map Prod.fst :=
          List.mem_map_of_mem Prod.fst htail
        rw [List.map_cons, List.nodup_cons] at hnd
        exact hnd.1 (hk ▸ hkmem)
    · rw [if_neg hk]
      rcases List.mem_cons.mp hmem with heq | htail
      · exact absurd (congrArg Prod.fst heq.symm) hk
      · rw [List.map_cons, List.nodup_cons] at hnd
        exact ih k a htail hnd.2

theorem convertLegacyDay_of_ge4 (today : Nat) :
    ∀ (bs : List Bool) (i : Nat), 4 ≤ i → convertLegacyDay today i bs = [] := by
  intro bs
  induction bs with
  | nil => intro i _; rfl
  | cons b rest ih =>
    intro i h
    rw [convertLegacyDay, dif_neg (by simp [defaultMigrationTasks]; omega)]
    exact ih (i + 1) (by omega)

theorem convertLegacyDay_eq_spec (today : Nat) (bs : List Bool) :
    convertLegacyDay today 0 bs = legacyDaySpec bs := by
  match bs with
  | [] => rfl
  | [b1] => rfl
  | [b1, b2] => rfl
  | [b1, b2, b3] => rfl
  | b1 :: b2 :: b3 :: b4 :: rest =>
    show convertLegacyDay today 0 (b1 :: b2 :: b3 :: b4 :: rest) = _
    rw [convertLegacyDay, dif_pos (by simp [defaultMigrationTasks]),
      convertLegacyDay, dif_pos (by simp [defaultMigrationTasks]),
      convertLegacyDay, dif_pos (by simp [defaultMigrationTasks]),
      convertLegacyDay, dif_pos (by simp [defaultMigrationTasks]),
      convertLegacyDay_of_ge4 today rest 4 (le_refl 4)]
    rfl

/-- C9: whenever the legacy mapping has a date with a non-empty boolean list
and its dates are distinct, migration runs and produces exactly the four
synthesized templates Task 1..Task 4 (binary, order 0..3, createdAt = today)
with empty export fields, and `LoadDay` of each legacy date afterwards is the
positional conversion of its boolean list (true → 1, false → 0, indices
beyond the four templates discarded). -/
theorem migration_spec (old : List (Nat × List Bool)) (today : Nat)
    (hne : ∃ p ∈ old, p.2 ≠ []) (hkeys : (old.map Prod.fst).Nodup) :
    ∃ res, migrateOldData old today = some res ∧
      res.templates = defaultMigrationTasks today ∧
      res.exportPath = "" ∧ res.exportHistory = [] ∧
      (∀ p ∈ old, LoadDay res p.1 = legacyDaySpec p.2) := by
  obtain ⟨p0, hp0, hp0ne⟩ := hne
  have h1 : old.isEmpty = false := by
    cases old
    · simp at hp0
    · simp
  have h2 : old.all (fun p => p.2.isEmpty) = false := by
    rw [List.all_eq_false]
    exact ⟨p0, hp0, by simpa [List.isEmpty_iff] using hp0ne⟩
  refine ⟨_, by unfold migrateOldData; rw [h1, h2]; rfl, rfl, rfl, rfl, ?_⟩
  intro p hp
  unfold LoadDay
  have hfv := findVal_map_of_mem (fun q => convertLegacyDay today 0 q.2) old p.1 p.2
    (by simpa using hp) hkeys
  simp only [PlannerData.days] at *
  rw [hfv]
  exact convertLegacyDay_eq_spec today p.2

/-- C9 witness: the migration scenario of the spec, with migration day
2025-01-01. -/
theorem migration_spec_witness :
    migrateOldData [(20240101, [true, false, true])] 20250101 = some dataC9 ∧
      dataC9.templates = defaultMigrationTasks 20250101 ∧
      LoadDay dataC9 20240101 = [("task-1", 1), ("task-2", 0), ("task-3", 1)] ∧
      findVal (LoadDay dataC9 20240101) "task-4" = none := by
  obtain ⟨res, hrun, htm, -, -, hload⟩ :=
    migration_spec [(20240101, [true, false, true])] 20250101
      ⟨(20240101, [true, false, true]), by decide⟩ (by decide)
  have hres : res = dataC9 := by
    have := hrun
    rw [show migrateOldData [(20240101, [true, false, true])] 20250101 = some dataC9
      from by decide] at this
    exact (Option.some_inj.mp this).symm
  subst hres
  refine ⟨hrun, htm, ?_, ?_⟩
  · rw [hload (20240101, [true, false, true]) (by decide)]
    decide
  · decide

/-! ## Claim C2: weekly report -/

theorem dayPercent_getD_eq_zeroSpec (data : PlannerData) (dk : Nat) :
    (dayPercent data.templates data.days dk).getD 0 = dayPercentZeroSpec data dk := by
  unfold dayPercent dayPercentZeroSpec
  cases hf : findVal data.days dk with
  | none =>
    by_cases h : (getTasksForDateLocked data.templates dk).length = 0 <;> simp [h, hf]
  | some rec =>
    by_cases h : (getTasksForDateLocked data.templates dk).length = 0
    · simp [h, hf]
    · simp only [h, if_neg, hf, if_false, Option.getD_some]
      rw [mul_comm]

/-- C2: for every week start date the weekly report's daily list is exactly
the seven day completion percentages of the window (0 for a day with no valid
tasks or no stored record); the weekly average times 7 equals the sum of the
seven values, i.e. the divisor is always 7; and a week whose every day has no
valid tasks yields seven 0 values and a 0 average. -/
theorem getWeeklyReport_spec (data : PlannerData) (start : CalDate) :
    (GetWeeklyReport data start).1 =
        (List.range 7).map (fun i => dayPercentZeroSpec data ((start.addDays i).key)) ∧
      (GetWeeklyReport data start).2 * 7 = (GetWeeklyReport data start).1.sum ∧
      ((∀ i, i < 7 → getTasksForDateLocked data.templates ((start.addDays i).key) = []) →
        (GetWeeklyReport data start).1 = List.replicate 7 0 ∧
          (GetWeeklyReport data start).2 = 0) := by
  have h1 : (GetWeeklyReport data start).1 =
      (List.range 7).map (fun i => dayPercentZeroSpec data ((start.addDays i).key)) :=
    List.map_congr_left (fun i _ => dayPercent_getD_eq_zeroSpec data ((start.addDays i).key))
  refine ⟨h1, ?_, ?_⟩
  · show ((GetWeeklyReport data start).1.sum / 7) * 7 = (GetWeeklyReport data start).1.sum
    rw [div_mul_cancel₀]
    norm_num
  · intro hz
    have hzero : ∀ i ∈ List.range 7, dayPercentZeroSpec data ((start.addDays i).key) = 0 := by
      intro i hi
      have hti := hz i (List.mem_range.mp hi)
      unfold dayPercentZeroSpec
      cases findVal data.days ((start.addDays i).key) <;> simp [hti]
    have hrep : (GetWeeklyReport data start).1 = List.replicate 7 0 := by
      rw [h1, List.eq_replicate_iff]
      constructor
      · simp
      · intro b hb
        obtain ⟨i, hi, rfl⟩ := List.mem_map.mp hb
        exact hzero i hi
    refine ⟨hrep, ?_⟩
    show (GetWeeklyReport data start).1.sum / 7 = 0
    rw [hrep]
    simp

/-- C2 witness: with an empty registry, every day of the week starting
2024-01-01 has no valid tasks, and the report is seven zeros with average
0. -/
theorem getWeeklyReport_spec_witness :
    (GetWeeklyReport dataEmpty ⟨2024, 1, 1⟩).1 = List.replicate 7 0 ∧
      (GetWeeklyReport dataEmpty ⟨2024, 1, 1⟩).2 = 0 := by
  exact (getWeeklyReport_spec dataEmpty ⟨2024, 1, 1⟩).2.2 (fun i _ => rfl)

/-! ## Claim C3: monthly report -/

theorem chunk7_nil {α : Type} : chunk7 ([] : List α) = [] := by
  rw [chunk7]
  rfl

theorem chunk7_cons_of_ne {α : Type} {l : List α} (h : l ≠ []) :
    chunk7 l = l.take 7 :: chunk7 (l.drop 7) := by
  rw [chunk7, if_neg (by simpa [List.isEmpty_iff] using h)]

theorem chunk7_ne_nil {α : Type} {l : List α} (h : l ≠ []) : chunk7 l ≠ [] := by
  rw [chunk7_cons_of_ne h]
  simp

theorem two_le_chunk7_length {α : Type} {l : List α} (h : 8 ≤ l.length) :
    2 ≤ (chunk7 l).length := by
  have hne : l ≠ [] := by
    intro he
    rw [he] at h
    simp at h
  have hdne : l.drop 7 ≠ [] := by
    intro he
    have := congrArg List.length he
    rw [List.length_drop] at this
    simp at this
    omega
  rw [chunk7_cons_of_ne hne, chunk7_cons_of_ne hdne]
  simp

theorem chunk7_dropLast_sevens {α : Type} (l : List α) :
    ∀ blk ∈ (chunk7 l).dropLast, blk.length = 7 := by
  by_cases h : l = []
  · subst h
    simp [chunk7_nil]
  · rw [chunk7_cons_of_ne h]
    by_cases hd : l.drop 7 = []
    · rw [hd, chunk7_nil]
      simp
    · have hne : chunk7 (l.drop 7) ≠ [] := chunk7_ne_nil hd
      rw [List.dropLast_cons_of_ne_nil hne]
      intro blk hblk
      rcases List.mem_cons.mp hblk with rfl | htail
      · have h7 : 7 < l.length := by
          have h1 := List.length_drop 7 l
          have hp : 0 < (l.drop 7).length := List.length_pos.mpr hd
          omega
        rw [List.length_take, Nat.min_eq_left (by omega)]
      · exact chunk7_dropLast_sevens (l.drop 7) blk htail
termination_by l.length
decreasing_by
  simp only [List.length_drop]
  have hp : 0 < l.length := List.length_pos.mpr h
  omega

theorem chunk7_map_length_of_30 {α : Type} (l : List α) (h : l.length = 30) :
    (chunk7 l).map List.length = [7, 7, 7, 7, 2] := by
  have ne1 : l ≠ [] := by intro he; rw [he] at h; simp at h
  have d1 : (l.drop 7).length = 23 := by rw [List.length_drop, h]
  have ne2 : l.drop 7 ≠ [] := by intro he; rw [he] at d1; simp at d1
  have d2 : ((l.drop 7).drop 7).length = 16 := by rw [List.length_drop, d1]
  have ne3 : (l.drop 7).drop 7 ≠ [] := by intro he; rw [he] at d2; simp at d2
  have d3 : (((l.drop 7).drop 7).drop 7).length = 9 := by rw [List.length_drop, d2]
  have ne4 : ((l.drop 7).drop 7).drop 7 ≠ [] := by intro he; rw [he] at d3; simp at d3
  have d4 : ((((l.drop 7).drop 7).drop 7).drop 7).length = 2 := by rw [List.length_drop, d3]
  have ne5 : (((l.drop 7).drop 7).drop 7).drop 7 ≠ [] := by
    intro he; rw [he] at d4; simp at d4
  have d5 : ((((l.drop 7).drop 7).drop 7).drop 7).drop 7 = [] := by
    apply List.eq_nil_of_length_eq_zero
    rw [List.length_drop, d4]
  rw [chunk7_cons_of_ne ne1, chunk7_cons_of_ne ne2, chunk7_cons_of_ne ne3,
    chunk7_cons_of_ne ne4, chunk7_cons_of_ne ne5, d5, chunk7_nil]
  simp [List.length_take, h, d1, d2, d3, d4]

theorem daysInMonth_ge_28 (y m : Nat) : 28 ≤ daysInMonth y m := by
  unfold daysInMonth
  split_ifs <;> norm_num

theorem trendOf_iff (ws : List ℚ) (h : 2 ≤ ws.length) :
    (trendOf ws = "up" ↔ ws.getLastD 0 > ws.headD 0 + 10) ∧
      (trendOf ws = "down" ↔ ws.getLastD 0 < ws.headD 0 - 10) ∧
      (trendOf ws = "stable" ↔
        ¬(ws.getLastD 0 > ws.headD 0 + 10) ∧ ¬(ws.getLastD 0 < ws.headD 0 - 10)) := by
  unfold trendOf
  rw [if_pos h]
  by_cases hA : ws.getLastD 0 > ws.headD 0 + 10
  · have hB : ¬(ws.getLastD 0 < ws.headD 0 - 10) := by
      intro hB
      have h10 : (0 : ℚ) < 10 := by norm_num
      linarith
    rw [if_pos hA]
    refine ⟨⟨fun _ => hA, fun _ => rfl⟩, ?_, ?_⟩
    · constructor
      · intro he
        exact absurd he (by decide)
      · intro hc
        exact absurd hc hB
    · constructor
      · intro he
        exact absurd he (by decide)
      · intro hc
        exact absurd hA hc.1
  · rw [if_neg hA]
    by_cases hB : ws.getLastD 0 < ws.headD 0 - 10
    · rw [if_pos hB]
      refine ⟨?_, ⟨fun _ => hB, fun _ => rfl⟩, ?_⟩
      · constructor
        · intro he
          exact absurd he (by decide)
        · intro hc
          exact absurd hc hA
      · constructor
        · intro he
          exact absurd he (by decide)
        · intro hc
          exact absurd hB hc.2
    · rw [if_neg hB]
      refine ⟨?_, ?_, ⟨fun _ => ⟨hA, hB⟩, fun _ => rfl⟩⟩
      · constructor
        · intro he
          exact absurd he (by decide)
        · intro hc
          exact absurd hc hA
      · constructor
        · intro he
          exact absurd he (by decide)
        · intro hc
          exact absurd hc hB

/-- C3: the monthly report's block list is the month's calendar days chunked
into consecutive blocks of 7 starting at day 1, each block valued as the sum
of its day percentages (zero-task and no-record days contributing 0) divided
by the number of days processed in the block; every non-final block has 7
days; a 30-day month yields block sizes 7, 7, 7, 7, 2; and the trend is "up"
iff the last block value exceeds the first by strictly more than 10, "down"
iff it is lower by strictly more than 10, and "stable" otherwise. -/
theorem getMonthlyReport_spec (data : PlannerData) (year month : Nat) :
    ((GetMonthlyReport data year month).1 =
        (chunk7 (monthDates year month)).map (fun blk =>
          (blk.map (fun dt => dayPercentZeroSpec data dt.key)).sum / (blk.length : ℚ))) ∧
      (∀ blk ∈ (chunk7 (monthDates year month)).dropLast, blk.length = 7) ∧
      (daysInMonth year month = 30 →
        (chunk7 (monthDates year month)).map List.length = [7, 7, 7, 7, 2]) ∧
      ((GetMonthlyReport data year month).2 = "up" ↔
        (GetMonthlyReport data year month).1.getLastD 0 >
          (GetMonthlyReport data year month).1.headD 0 + 10) ∧
      ((GetMonthlyReport data year month).2 = "down" ↔
        (GetMonthlyReport data year month).1.getLastD 0 <
          (GetMonthlyReport data year month).1.headD 0 - 10) ∧
      ((GetMonthlyReport data year month).2 = "stable" ↔
        ¬((GetMonthlyReport data year month).1.getLastD 0 >
            (GetMonthlyReport data year month).1.headD 0 + 10) ∧
          ¬((GetMonthlyReport data year month).1.getLastD 0 <
            (GetMonthlyReport data year month).1.headD 0 - 10)) := by
  have hlen : 2 ≤ (blockValues data (monthDates year month)).length := by
    unfold blockValues
    rw [List.length_map]
    apply two_le_chunk7_length
    unfold monthDates
    rw [List.length_map, List.length_range]
    have := daysInMonth_ge_28 year month
    omega
  have htr := trendOf_iff (blockValues data (monthDates year month)) hlen
  refine ⟨?_, chunk7_dropLast_sevens (monthDates year month), ?_, htr.1, htr.2.1, htr.2.2⟩
  · show blockValues data (monthDates year month) = _
    unfold blockValues
    apply List.map_congr_left
    intro blk _
    congr 1
    apply congrArg
    exact List.map_congr_left (fun dt _ => dayPercent_getD_eq_zeroSpec data dt.key)
  · intro h30
    apply chunk7_map_length_of_30
    unfold monthDates
    rw [List.length_map, List.length_range, h30]

/-- C3 witness: April 2024 has 30 days, and with an empty registry its block
sizes are 7, 7, 7, 7, 2 and the trend is "stable". -/
theorem getMonthlyReport_spec_witness :
    (chunk7 (monthDates 2024 4)).map List.length = [7, 7, 7, 7, 2] ∧
      ((GetMonthlyReport dataEmpty 2024 4).2 = "stable" ↔
        ¬((GetMonthlyReport dataEmpty 2024 4).1.getLastD 0 >
            (GetMonthlyReport dataEmpty 2024 4).1.headD 0 + 10) ∧
          ¬((GetMonthlyReport dataEmpty 2024 4).1.getLastD 0 <
            (GetMonthlyReport dataEmpty 2024 4).1.headD 0 - 10)) := by
  have h := getMonthlyReport_spec dataEmpty 2024 4
  exact ⟨h.2.2.1 (by decide), h.2.2.2.2.2⟩

/-! ## Claim C4: most consistent month -/

theorem popVariance_nonneg (l : List ℚ) : 0 ≤ popVariance l := by
  unfold popVariance
  split
  · exact le_refl 0
  · apply div_nonneg
    · apply List.sum_nonneg
      intro x hx
      obtain ⟨p, -, rfl⟩ := List.mem_map.mp hx
      exact mul_self_nonneg _
    · exact Nat.cast_nonneg _

theorem scanInv_step (avgs vars : List ℚ) (hvar : ∀ j, 0 ≤ vars.getD j 0)
    (i : Nat) (acc : Nat × ℚ) (h : ScanInv avgs vars i acc) :
    ScanInv avgs vars (i + 1) (consistentStep avgs vars acc i) := by
  unfold consistentStep
  rcases h with ⟨hacc, hnone⟩ | ⟨h0, hlt, hq, hv, hmin, htie⟩
  · subst hacc
    by_cases hq : 0 < avgs.getD i 0
    · rw [if_pos ⟨hq, Or.inl (by norm_num)⟩]
      right
      refine ⟨hvar i, Nat.lt_succ_self i, hq, rfl, ?_, ?_⟩
      · intro j hj hqj
        rcases Nat.lt_succ_iff_lt_or_eq.mp hj with hj2 | rfl
        · exact absurd hqj (hnone j hj2)
        · exact le_refl _
      · intro j hj hqj _
        rcases Nat.lt_succ_iff_lt_or_eq.mp hj with hj2 | rfl
        · exact absurd hqj (hnone j hj2)
        · exact le_refl _
    · rw [if_neg (fun hc => hq hc.1)]
      left
      refine ⟨rfl, fun j hj => ?_⟩
      rcases Nat.lt_succ_iff_lt_or_eq.mp hj with hj2 | rfl
      · exact hnone j hj2
      · exact hq
  · have hnneg : ¬(acc.2 < 0) := not_lt.mpr h0
    by_cases hcond : 0 < avgs.getD i 0 ∧ vars.getD i 0 < acc.2
    · rw [if_pos ⟨hcond.1, Or.inr hcond.2⟩]
      right
      refine ⟨hvar i, Nat.lt_succ_self i, hcond.1, rfl, ?_, ?_⟩
      · intro j hj hqj
        rcases Nat.lt_succ_iff_lt_or_eq.mp hj with hj2 | rfl
        · have h1 : vars.getD i 0 < vars.getD acc.1 0 := hv ▸ hcond.2
          exact le_of_lt (lt_of_lt_of_le h1 (hmin j hj2 hqj))
        · exact le_refl _
      · intro j hj hqj heq
        rcases Nat.lt_succ_iff_lt_or_eq.mp hj with hj2 | rfl
        · exfalso
          have h1 : vars.getD i 0 < vars.getD acc.1 0 := hv ▸ hcond.2
          have h2 : vars.getD acc.1 0 ≤ vars.getD j 0 := hmin j hj2 hqj
          rw [heq] at h2
          exact absurd (lt_of_le_of_lt h2 h1) (lt_irrefl _)
        · exact le_refl _
    · rw [if_neg (fun hc => hcond ⟨hc.1, hc.2.resolve_left hnneg⟩)]
      right
      refine ⟨h0, Nat.lt_succ_of_lt hlt, hq, hv, ?_, ?_⟩
      · intro j hj hqj
        rcases Nat.lt_succ_iff_lt_or_eq.mp hj with hj2 | rfl
        · exact hmin j hj2 hqj
        · have : ¬(vars.getD j 0 < acc.2) := fun hc => hcond ⟨hqj, hc⟩
          rw [hv] at this
          exact not_lt.mp this
      · intro j hj hqj heq
        rcases Nat.lt_succ_iff_lt_or_eq.mp hj with hj2 | rfl
        · exact htie j hj2 hqj heq
        · exact le_of_lt hlt

theorem scanInv_foldl (avgs vars : List ℚ) (hvar : ∀ j, 0 ≤ vars.getD j 0) :
    ∀ (n i : Nat) (acc : Nat × ℚ), ScanInv avgs vars i acc →
      ScanInv avgs vars (i + n) (List.foldl (consistentStep avgs vars) acc (List.range' i n)) := by
  intro n
  induction n with
  | zero => intro i acc h; simpa using h
  | succ n ih =>
    intro i acc h
    rw [List.range'_succ, List.foldl_cons]
    have hstep := scanInv_step avgs vars hvar i acc h
    have hres := ih (i + 1) (consistentStep avgs vars acc i) hstep
    have harith : i + 1 + n = i + (n + 1) := by omega
    rwa [harith] at hres

/-- C4: when at least one month of the year has a strictly positive average,
`mostConsistentMonth` is an index below 12 of a month with positive average
whose filtered day-percentage list has the least population variance among
all positive-average months, and every positive-average month with a smaller
index has strictly larger variance (equal-variance ties keep the first index
scanned). -/
theorem mostConsistentMonth_spec (data : PlannerData) (year : Nat)
    (h : ∃ i, i < 12 ∧ 0 < (GetYearlyReport data year).1.getD i 0) :
    (GetYearlyReport data year).2.1 < 12 ∧
      0 < (GetYearlyReport data year).1.getD (GetYearlyReport data year).2.1 0 ∧
      (∀ j, j < 12 → 0 < (GetYearlyReport data year).1.getD j 0 →
        popVariance (monthFilteredPercents data year ((GetYearlyReport data year).2.1 + 1)) ≤
          popVariance (monthFilteredPercents data year (j + 1))) ∧
      (∀ j, j < (GetYearlyReport data year).2.1 →
        0 < (GetYearlyReport data year).1.getD j 0 →
        popVariance (monthFilteredPercents data year ((GetYearlyReport data year).2.1 + 1)) <
          popVariance (monthFilteredPercents data year (j + 1))) := by
  have havgs : (GetYearlyReport data year).1 =
      ((List.range 12).map (fun i => monthFilteredPercents data year (i + 1))).map listAvg :=
    rfl
  have hmc : (GetYearlyReport data year).2.1 =
      (List.foldl
        (consistentStep
          (((List.range 12).map (fun i => monthFilteredPercents data year (i + 1))).map listAvg)
          (((List.range 12).map (fun i => monthFilteredPercents data year (i + 1))).map
            popVariance))
        (0, -1) (List.range 12)).1 := rfl
  have hvarget : ∀ j, j < 12 →
      (((List.range 12).map (fun i => monthFilteredPercents data year (i + 1))).map
          popVariance).getD j 0 =
        popVariance (monthFilteredPercents data year (j + 1)) := by
    intro j hj
    rw [List.getD_eq_getElem _ _ (by simpa using hj)]
    simp
  have hvar : ∀ j, 0 ≤
      (((List.range 12).map (fun i => monthFilteredPercents data year (i + 1))).map
          popVariance).getD j 0 := by
    intro j
    by_cases hj : j < 12
    · rw [hvarget j hj]
      exact popVariance_nonneg _
    · rw [List.getD_eq_default _ _ (by simpa using hj)]
  have hinv := scanInv_foldl
    (((List.range 12).map (fun i => monthFilteredPercents data year (i + 1))).map listAvg)
    (((List.range 12).map (fun i => monthFilteredPercents data year (i + 1))).map popVariance)
    hvar 12 0 (0, -1) (Or.inl ⟨rfl, fun j hj => absurd hj (Nat.not_lt_zero j)⟩)
  rw [← List.range_eq_range'] at hinv
  rcases hinv with ⟨-, hnone⟩ | ⟨-, hlt, hq, -, hmin, htie⟩
  · obtain ⟨i, hi, hpos⟩ := h
    rw [havgs] at hpos
    exact absurd hpos (hnone i (by simpa using hi))
  · simp only [Nat.zero_add] at hmin htie
    rw [← hmc] at hlt hq hmin htie
    refine ⟨hlt, by rw [havgs]; exact hq, ?_, ?_⟩
    · intro j hj hqj
      rw [← hvarget _ hlt, ← hvarget j hj]
      exact hmin j hj (by rwa [havgs] at hqj)
    · intro j hj hqj
      have hj12 : j < 12 := lt_trans hj hlt
      have hle := hmin j hj12 (by rwa [havgs] at hqj)
      have hne : ¬(((((List.range 12).map
          (fun i => monthFilteredPercents data year (i + 1))).map popVariance).getD j 0) =
            ((((List.range 12).map
              (fun i => monthFilteredPercents data year (i + 1))).map popVariance).getD
              (GetYearlyReport data year).2.1 0)) := by
        intro heq
        have := htie j hj12 (by rwa [havgs] at hqj) heq
        omega
      rw [← hvarget _ hlt, ← hvarget j hj12]
      exact lt_of_le_of_ne hle (fun he => hne he.symm)

/-- C4 witness: in `dataC4` January and February both average 75, January with
variance 0 and February with positive variance; the selected index is a
qualifying month of minimal variance, no later than February's. -/
theorem mostConsistentMonth_spec_witness :
    (GetYearlyReport dataC4 2024).2.1 < 12 ∧
      0 < (GetYearlyReport dataC4 2024).1.getD (GetYearlyReport dataC4 2024).2.1 0 ∧
      popVariance
          (monthFilteredPercents dataC4 2024 ((GetYearlyReport dataC4 2024).2.1 + 1)) ≤
        popVariance (monthFilteredPercents dataC4 2024 2) := by
  have hs : yearSummaries dataC4 2024 =
      [[(3, 4), (3, 4)], [(2, 4), (4, 4)], [], [], [], [], [], [], [], [], [], []] := by decide
  have hpos0 : 0 < (GetYearlyReport dataC4 2024).1.getD 0 0 := by
    rw [getYearlyReport_eq_summaries, hs]
    norm_num [yearlyFromLists, listAvg, pctOf]
  have hpos1 : 0 < (GetYearlyReport dataC4 2024).1.getD 1 0 := by
    rw [getYearlyReport_eq_summaries, hs]
    norm_num [yearlyFromLists, listAvg, pctOf]
  have h := mostConsistentMonth_spec dataC4 2024 ⟨0, by norm_num, hpos0⟩
  exact ⟨h.1, h.2.1, h.2.2.1 1 (by norm_num) hpos1⟩

/-! ## Claim C1: yearTotal -/

theorem yearTotalClaim_eq_summaries (data : PlannerData) (year : Nat) :
    yearTotalClaim data year =
      (let avgs := (yearSummaries data year).map (fun s => listAvg (s.map pctOf))
       let pos := avgs.filter (fun a => decide (0 < a))
       if pos.length = 0 then 0 else pos.sum / (pos.length : ℚ)) := by
  unfold yearTotalClaim yearSummaries
  rw [List.map_map]
  have h : (fun i => listAvg (monthFilteredPercents data year (i + 1))) =
      ((fun s : List (Nat × Nat) => listAvg (s.map pctOf)) ∘
        fun i => monthSummaries data year (i + 1)) :=
    funext fun i => by
      simp only [Function.comp_apply, monthFilteredPercents_eq_summaries]
  rw [h]

/-- C1 counterexample: in `dataC1`, January's filtered list is `[0%]` (a
stored record with nothing completed) and February's is `[100%]`; the code
also counts the zero-average January in the denominator and returns
`yearTotal = 50`, whereas the claimed mean over months with average > 0 is
100. -/
theorem yearTotal_counterexample :
    (GetYearlyReport dataC1 2024).2.2 = 50 ∧ yearTotalClaim dataC1 2024 = 100 ∧
      (GetYearlyReport dataC1 2024).2.2 ≠ yearTotalClaim dataC1 2024 := by
  have hs : yearSummaries dataC1 2024 =
      [[(0, 1)], [(1, 1)], [], [], [], [], [], [], [], [], [], []] := by decide
  have h1 : (GetYearlyReport dataC1 2024).2.2 = 50 := by
    rw [getYearlyReport_eq_summaries, hs]
    norm_num [yearlyFromLists, listAvg, pctOf]
  have h2 : yearTotalClaim dataC1 2024 = 100 := by
    rw [yearTotalClaim_eq_summaries, hs]
    norm_num [listAvg, pctOf]
  refine ⟨h1, h2, ?_⟩
  rw [h1, h2]
  norm_num

theorem yearlyFromLists_total (lists : List (List ℚ)) :
    (yearlyFromLists lists).2.2 =
      (if (lists.filter (fun l => !l.isEmpty)).length = 0 then 0
       else ((lists.filter (fun l => !l.isEmpty)).map listAvg).sum /
         (((lists.filter (fun l => !l.isEmpty)).length : ℚ))) := rfl

theorem filter_map_listAvg_eq_filterMap (ls : List (List ℚ)) :
    (ls.filter (fun l => !l.isEmpty)).map listAvg =
      ls.filterMap (fun l => if l.length = 0 then none else some (l.sum / (l.length : ℚ))) := by
  induction ls with
  | nil => rfl
  | cons l rest ih =>
    rw [List.filter_cons, List.filterMap_cons]
    by_cases h : l.isEmpty
    · have hlen : l.length = 0 := by
        simpa [List.isEmpty_iff, List.length_eq_zero] using h
      simp [h, hlen, ih]
    · have hlen : ¬(l.length = 0) := by
        simp only [List.isEmpty_iff] at h
        simpa [List.length_eq_zero] using h
      simp [h, hlen, ih, listAvg]

/-- C1 (amended): `yearTotal` is the arithmetic mean of the monthly averages
taken over the months whose filtered day-percentage list is non-empty — a
month with data averaging exactly 0 does enter the denominator — and 0 when
no month has any processed day. -/
theorem yearTotal_amended (data : PlannerData) (year : Nat) :
    (GetYearlyReport data year).2.2 = yearTotalAmendedClaim data year := by
  unfold GetYearlyReport yearTotalAmendedClaim
  rw [yearlyFromLists_total]
  have hG : (fun i =>
      let l := monthFilteredPercents data year (i + 1)
      if l.length = 0 then none else some (l.sum / (l.length : ℚ))) =
      ((fun l : List ℚ => if l.length = 0 then none else some (l.sum / (l.length : ℚ))) ∘
        fun i => monthFilteredPercents data year (i + 1)) :=
    funext fun i => rfl
  rw [hG, ← List.filterMap_map, ← filter_map_listAvg_eq_filterMap]
  simp only [List.length_map]

end Plan
